import Mathlib

set_option maxRecDepth 100000

/-!
Verification of the realtime chat / notification subsystem of the buddy
travel-meetup application.  Each definition is a shallow embedding of a
function from the repository sources (the TypeScript client components,
the zod validation library, or the SQL trigger migrations); theorems state
and settle the specification claims about them.
-/

namespace Buddy

/-! ## Message types (schema CHECK constraint on message_type) -/

inductive MessageType where
  | text
  | image
  | file
  | location
deriving DecidableEq, Repr

/-! ## Text utilities for the send path (src/lib/validation.ts)

Message text is modelled as `List Char`.  `trimChars` models the
JavaScript `String.prototype.trim` (and zod's `.trim()`): whitespace is
stripped from both ends. -/

def isJsSpace (c : Char) : Bool := c.isWhitespace

def trimChars (l : List Char) : List Char :=
  ((l.dropWhile isJsSpace).reverse.dropWhile isJsSpace).reverse

/-- zod `chatMessageContentSchema`: `z.string().trim().min(1).max(5000)`.
The min/max bounds are checked on the trimmed string. -/
def chatMessageContentOk (raw : List Char) : Bool :=
  decide (1 ≤ (trimChars raw).length) && decide ((trimChars raw).length ≤ 5000)

/-! ### sanitizeText

`sanitizeText` applies two global regex replacements and a trim:
`.replace(/<script\b[^<]*(?:(?!<\/script>)<[^<]*)*<\/script>/gi, '')`
removes each `<script ... </script>` block (case-insensitively, with a
word boundary after `script`, terminated by the first following
`</script>`; a block with no closing tag is left untouched), then
`.replace(/<[^>]*>/g, '')` removes every `<...>` segment up to the first
`>` (a trailing `<` with no `>` is left untouched). -/

def isWordChar (c : Char) : Bool := c.isAlphanum || c = '_'

def lowerList (l : List Char) : List Char := l.map Char.toLower

def scriptOpenChars : List Char := ("<script".toList)

def scriptCloseChars : List Char := ("</script>".toList)

/-- Index of the first (case-insensitive) occurrence of `</script>`. -/
def findScriptCloseIdx : List Char → Option Nat
  | [] => none
  | c :: rest =>
    if List.isPrefixOf scriptCloseChars (lowerList (c :: rest)) then some 0
    else (findScriptCloseIdx rest).map (· + 1)

/-- After `<script` the regex requires a word boundary: the next character
must not be a word character (end of input is a boundary). -/
def scriptBoundaryOk : List Char → Bool
  | [] => true
  | d :: _ => !(isWordChar d)

def stripScriptsF : Nat → List Char → List Char
  | 0, l => l
  | _ + 1, [] => []
  | fuel + 1, c :: rest =>
    let s := c :: rest
    if List.isPrefixOf scriptOpenChars (lowerList s) && scriptBoundaryOk (s.drop 7) then
      match findScriptCloseIdx (s.drop 7) with
      | some i => stripScriptsF fuel (s.drop (7 + i + 9))
      | none => c :: stripScriptsF fuel rest
    else c :: stripScriptsF fuel rest

def stripScripts (s : List Char) : List Char := stripScriptsF s.length s

def stripTagsF : Nat → List Char → List Char
  | 0, l => l
  | _ + 1, [] => []
  | fuel + 1, c :: rest =>
    if c = '<' then
      match rest.findIdx? (fun d => d = '>') with
      | some k => stripTagsF fuel (rest.drop (k + 1))
      | none => c :: rest
    else c :: stripTagsF fuel rest

def stripTags (s : List Char) : List Char := stripTagsF s.length s

def sanitizeText (raw : List Char) : List Char :=
  trimChars (stripTags (stripScripts raw))

/-! ### extractUrls

`extractUrls`: `text.match(/(https?:\/\/[^\s]+)/g) || []`.  Scanning left
to right, a match starts at a literal `http://` or `https://` prefix and
extends over at least one and then maximally many non-whitespace
characters; scanning resumes after the match. -/

def httpsChars : List Char := ("https://".toList)

def httpChars : List Char := ("http://".toList)

def urlSchemeLen (s : List Char) : Option Nat :=
  if List.isPrefixOf httpsChars s then some 8
  else if List.isPrefixOf httpChars s then some 7
  else none

def isUrlTokenChar (c : Char) : Bool := !c.isWhitespace

def extractUrlsF : Nat → List Char → List (List Char)
  | 0, _ => []
  | _ + 1, [] => []
  | fuel + 1, c :: rest =>
    let s := c :: rest
    match urlSchemeLen s with
    | some p =>
      let tail := s.drop p
      let tok := tail.takeWhile isUrlTokenChar
      if tok.isEmpty then extractUrlsF fuel rest
      else (s.take p ++ tok) :: extractUrlsF fuel (tail.drop tok.length)
    | none => extractUrlsF fuel rest

def extractUrls (s : List Char) : List (List Char) := extractUrlsF s.length s

/-! ### validateGoogleMapsLink

`linkValidation = z.string().url().refine(url => googleMapsUrlRegex.test(url))`
with `googleMapsUrlRegex =
/^https?:\/\/(www\.)?(google\.com\/maps|maps\.google\.com|goo\.gl\/maps)/i`.
zod's `.url()` (external library) tries `new URL(value)`; it is modelled
here as requiring a `http(s)://` prefix with a nonempty remainder, which
agrees with `new URL` on every token `extractUrls` can produce. -/

def wwwChars : List Char := ("www.".toList)

def mapsHost1 : List Char := ("google.com/maps".toList)

def mapsHost2 : List Char := ("maps.google.com".toList)

def mapsHost3 : List Char := ("goo.gl/maps".toList)

def googleMapsShapeTest (u : List Char) : Bool :=
  let t := lowerList u
  match urlSchemeLen t with
  | none => false
  | some p =>
    let r := t.drop p
    let r2 := if List.isPrefixOf wwwChars r then r.drop 4 else r
    List.isPrefixOf mapsHost1 r2 || List.isPrefixOf mapsHost2 r2 ||
      List.isPrefixOf mapsHost3 r2

def zodUrlOk (u : List Char) : Bool :=
  let t := lowerList u
  match urlSchemeLen t with
  | none => false
  | some p => decide (p < t.length)

def validateGoogleMapsLink (u : List Char) : Bool :=
  zodUrlOk u && googleMapsShapeTest u

/-! ### The two client send paths -/

structure OutgoingMessage where
  message_type : MessageType
  content : List Char
deriving DecidableEq, Repr

/-- Message-type detection in `MeetupChat.handleSendMessage`:
`let messageType = 'text'; if (urls.length > 0) { if (urls.some(validateGoogleMapsLink)) messageType = 'location' }`. -/
def detectTextMessageType (t : List Char) : MessageType :=
  let urls := extractUrls t
  if 0 < urls.length then
    if urls.any validateGoogleMapsLink then MessageType.location
    else MessageType.text
  else MessageType.text

/-- `MeetupChat.handleSendMessage` text path: the `!newMessage.trim()`
guard, then `chatMessageContentSchema.safeParse`, then sanitize, classify
and insert.  `none` means no row is written. -/
def meetupSendText (raw : List Char) : Option OutgoingMessage :=
  if (trimChars raw).isEmpty then none
  else if chatMessageContentOk raw then
    some ⟨detectTextMessageType (sanitizeText raw), sanitizeText raw⟩
  else none

/-- `CommunityChat.handleSendMessage`: same guard and validation, but the
inserted row always has `message_type: 'text'` (no classification). -/
def communitySendText (raw : List Char) : Option OutgoingMessage :=
  if (trimChars raw).isEmpty then none
  else if chatMessageContentOk raw then
    some ⟨MessageType.text, sanitizeText raw⟩
  else none

/-! ## Client realtime message state
(MeetupChat.tsx / CommunityChat.tsx)

A chat row as held in the client's `messages` state.  Timestamps are
modelled as naturals. -/

structure ChatMessage where
  id : Nat
  meetup_id : Nat
  user_id : Nat
  message_type : MessageType
  content : String
  created_at : Nat
deriving DecidableEq, Repr

def timeLE (a b : ChatMessage) : Prop := a.created_at ≤ b.created_at

/-- The point read issued by the realtime handlers:
`.select(...).eq('id', payload.new.id).maybeSingle()`. -/
def pointFetchMessage (db : List ChatMessage) (i : Nat) : Option ChatMessage :=
  db.find? (fun m => m.id == i)

/-- INSERT branch of the realtime handler: re-fetch the row, and if found
append it — `setMessages((prev) => [...prev, data])`.  There is no check
whether the id is already present. -/
def applyInsertEvent (db st : List ChatMessage) (i : Nat) : List ChatMessage :=
  match pointFetchMessage db i with
  | some m => st ++ [m]
  | none => st

/-- UPDATE branch (MeetupChat only): re-fetch and replace in place —
`setMessages((prev) => prev.map(msg => msg.id === data.id ? data : msg))`. -/
def applyUpdateEvent (db st : List ChatMessage) (i : Nat) : List ChatMessage :=
  match pointFetchMessage db i with
  | some m => st.map (fun x => if x.id == m.id then m else x)
  | none => st

/-- DELETE branch:
`setMessages((prev) => prev.filter((msg) => msg.id !== payload.old.id))`. -/
def applyDeleteEvent (st : List ChatMessage) (i : Nat) : List ChatMessage :=
  st.filter (fun m => !(m.id == i))

/-- Stable insertion into a list ordered by `created_at` ascending. -/
def insertByTime (m : ChatMessage) : List ChatMessage → List ChatMessage
  | [] => [m]
  | x :: xs =>
    if m.created_at ≤ x.created_at then m :: x :: xs
    else x :: insertByTime m xs

/-- The store's `ORDER BY created_at ASC` (stable ascending sort). -/
def sortByCreatedAt : List ChatMessage → List ChatMessage
  | [] => []
  | x :: xs => insertByTime x (sortByCreatedAt xs)

/-- `MeetupChat.fetchMessages`: select the meetup's rows ordered by
`created_at` ascending. -/
def fetchMeetupMessages (db : List ChatMessage) (mid : Nat) : List ChatMessage :=
  sortByCreatedAt (db.filter (fun m => m.meetup_id == mid))

/-- `CommunityChat.fetchMessages`: all community rows ordered by
`created_at` ascending, `.limit(100)`. -/
def fetchCommunityMessages (db : List ChatMessage) : List ChatMessage :=
  (sortByCreatedAt db).take 100

/-! ## Server-side notification fan-out
(supabase-notifications-migration.sql)

The database state read by the trigger functions. -/

structure MeetupRow where
  id : Nat
  title : String
deriving DecidableEq, Repr

structure ProfileRow where
  id : Nat
  username : Option String
deriving DecidableEq, Repr

structure MemberRow where
  meetup_id : Nat
  user_id : Nat
deriving DecidableEq, Repr

structure NotificationRow where
  user_id : Nat
  ntype : String
  title : String
  body : String
  meetup_id : Nat
deriving DecidableEq, Repr

structure TriggerDb where
  meetups : List MeetupRow
  profiles : List ProfileRow
  meetup_members : List MemberRow
deriving DecidableEq, Repr

/-- `SELECT title INTO meetup_title FROM meetups WHERE id = ...`
(NULL when no row matches). -/
def lookupMeetupTitle (db : TriggerDb) (mid : Nat) : Option String :=
  (db.meetups.find? (fun m => m.id == mid)).map (fun m => m.title)

/-- `SELECT username INTO ... FROM profiles WHERE id = ...`
(NULL when no row matches or the stored username is NULL). -/
def lookupUsername (db : TriggerDb) (uid : Nat) : Option String :=
  (db.profiles.find? (fun p => p.id == uid)).bind (fun p => p.username)

structure NewChatMessage where
  meetup_id : Nat
  user_id : Nat
  content : String
deriving DecidableEq, Repr

structure NewActivityRow where
  meetup_id : Nat
  created_by : Nat
  title : String
deriving DecidableEq, Repr

/-- Trigger function `notify_meetup_message`: for every membership row of
the meetup whose user is not the sender, insert one notification of type
`'message'` with title `'New message in ' || meetup_title` and body
`COALESCE(sender_name, 'Someone') || ': ' || LEFT(NEW.content, 100)`.
When the meetup row is missing the title is NULL and each insert would
abort on the NOT NULL title column, so no notification row is produced
in that case either. -/
def notifyMeetupMessage (db : TriggerDb) (msg : NewChatMessage) : List NotificationRow :=
  match lookupMeetupTitle db msg.meetup_id with
  | none => []
  | some t =>
    (db.meetup_members.filter
        (fun r => r.meetup_id == msg.meetup_id && !(r.user_id == msg.user_id))).map
      (fun r =>
        ⟨r.user_id, "message", "New message in " ++ t,
          (lookupUsername db msg.user_id).getD "Someone" ++ ": " ++ msg.content.take 100,
          msg.meetup_id⟩)

/-- Trigger function `notify_meetup_activity`: for every membership row of
the meetup whose user is not the creator, insert one notification of type
`'activity'` with title `'New activity in ' || meetup_title` and body
`COALESCE(creator_name, 'Someone') || ' created: ' || NEW.title`. -/
def notifyMeetupActivity (db : TriggerDb) (a : NewActivityRow) : List NotificationRow :=
  match lookupMeetupTitle db a.meetup_id with
  | none => []
  | some t =>
    (db.meetup_members.filter
        (fun r => r.meetup_id == a.meetup_id && !(r.user_id == a.created_by))).map
      (fun r =>
        ⟨r.user_id, "activity", "New activity in " ++ t,
          (lookupUsername db a.created_by).getD "Someone" ++ " created: " ++ a.title,
          a.meetup_id⟩)

/-! ### Trigger wiring

`CREATE TRIGGER on_new_meetup_message AFTER INSERT ON
public.meetup_chat_messages ...` attaches the message fan-out to the
table `meetup_chat_messages`; the client (`MeetupChat.handleSendMessage`)
inserts chat rows into `chat_messages` (the table created by the schema
scripts).  The activity trigger is attached to `meetup_activities`, the
same table `CreateActivityDialog` inserts into. -/

def messageNotifyTriggerTable : String := "meetup_chat_messages"

def clientChatMessagesTable : String := "chat_messages"

def activityNotifyTriggerTable : String := "meetup_activities"

def clientActivitiesTable : String := "meetup_activities"

/-- Notifications produced by a client chat-message insert: the fan-out
trigger fires only if it is attached to the table the insert targets. -/
def notificationsOnChatMessageInsert (db : TriggerDb) (msg : NewChatMessage) :
    List NotificationRow :=
  if messageNotifyTriggerTable = clientChatMessagesTable then
    notifyMeetupMessage db msg
  else []

/-- Notifications produced by a client activity insert. -/
def notificationsOnActivityInsert (db : TriggerDb) (a : NewActivityRow) :
    List NotificationRow :=
  if activityNotifyTriggerTable = clientActivitiesTable then
    notifyMeetupActivity db a
  else []

/-! ## Join / membership gate
(MeetupDetails.handleJoinMeetup, PendingRequests.handleRequest) -/

inductive ReqStatus where
  | pending
  | approved
  | rejected
deriving DecidableEq, Repr

structure JoinRequestRow where
  id : Nat
  meetup_id : Nat
  user_id : Nat
  status : ReqStatus
  updated_at : Nat
deriving DecidableEq, Repr

inductive MeetupVisibility where
  | vOpen
  | vLocked
deriving DecidableEq, Repr

structure JoinState where
  members : List MemberRow
  requests : List JoinRequestRow
deriving DecidableEq, Repr

inductive JoinOutcome where
  | groupFull
  | alreadyPending
  | resubmitted
  | requested
  | joined
deriving DecidableEq, Repr

/-- `MeetupDetails.handleJoinMeetup`.  `st.members` is the component's
fetched member list for this meetup.  The capacity check
`members.length >= meetup.max_members` runs first and returns without any
write; a locked meetup then looks up the caller's existing join request
(`.eq('meetup_id', ...).eq('user_id', ...).maybeSingle()`): a pending one
short-circuits, any other is updated in place to `'pending'` with a fresh
`updated_at`, and a missing one is inserted as `'pending'`; an open
meetup inserts a membership row directly. -/
def handleJoinMeetup (meetupId maxMembers : Nat) (vis : MeetupVisibility)
    (userId now newReqId : Nat) (st : JoinState) : JoinOutcome × JoinState :=
  if st.members.length ≥ maxMembers then (JoinOutcome.groupFull, st)
  else
    match vis with
    | MeetupVisibility.vLocked =>
      match st.requests.find? (fun r => r.meetup_id == meetupId && r.user_id == userId) with
      | some r =>
        if r.status = ReqStatus.pending then (JoinOutcome.alreadyPending, st)
        else
          (JoinOutcome.resubmitted,
            { st with
              requests := st.requests.map (fun q =>
                if q.id == r.id then
                  { q with status := ReqStatus.pending, updated_at := now }
                else q) })
      | none =>
        (JoinOutcome.requested,
          { st with
            requests := st.requests ++ [⟨newReqId, meetupId, userId, ReqStatus.pending, now⟩] })
    | MeetupVisibility.vOpen =>
      (JoinOutcome.joined, { st with members := st.members ++ [⟨meetupId, userId⟩] })

/-- `PendingRequests.handleRequest`: first write updates the request's
status (`'approved'` or `'rejected'`), then — only when approving — a
second, separate write inserts the membership row.  `memberInsertFails`
is the external failure of that second write; the thrown error is caught
after the status update has already succeeded, so the update is kept.
The returned flag is `false` when the flow ended in the catch branch. -/
def handleRequest (requestId userId meetupId : Nat)
    (approved memberInsertFails : Bool) (st : JoinState) : JoinState × Bool :=
  let requests1 := st.requests.map (fun q =>
    if q.id == requestId then
      { q with status := if approved then ReqStatus.approved else ReqStatus.rejected }
    else q)
  if approved then
    if memberInsertFails then ({ st with requests := requests1 }, false)
    else ({ members := st.members ++ [⟨meetupId, userId⟩], requests := requests1 }, true)
  else ({ st with requests := requests1 }, true)

/-! ## Concrete fixtures used by closed theorems -/

/-- A meetup titled Trip with members alice (1, the sender/creator) and
bob (2). -/
def dbTrip : TriggerDb :=
  ⟨[⟨7, "Trip"⟩], [⟨1, some "alice"⟩, ⟨2, some "bob"⟩], [⟨7, 1⟩, ⟨7, 2⟩]⟩

def msgHello : NewChatMessage := ⟨7, 1, "hello"⟩

def actHike : NewActivityRow := ⟨7, 1, "Hike"⟩

def msgA : ChatMessage := ⟨5, 7, 1, MessageType.text, "hi", 10⟩

def msgB : ChatMessage := ⟨9, 7, 2, MessageType.text, "yo", 20⟩

/-! ## Helper lemmas -/

instance : DecidableRel timeLE :=
  fun a b => inferInstanceAs (Decidable (a.created_at ≤ b.created_at))

lemma countP_congr_eq {α : Type} (p q : α → Bool) (l : List α)
    (h : ∀ a ∈ l, p a = q a) : l.countP p = l.countP q := by
  induction l with
  | nil => rfl
  | cons a tl ih =>
    simp only [List.countP_cons, h a (by simp),
      ih (fun b hb => h b (by simp [hb]))]

lemma dropWhile_replicate_of_not {α : Type} (p : α → Bool) (a : α) (h : p a = false) :
    ∀ n, List.dropWhile p (List.replicate n a) = List.replicate n a := by
  intro n
  induction n with
  | zero => simp
  | succ n ih => simp [List.replicate_succ, List.dropWhile_cons, h, ih]

lemma trimChars_replicate (a : Char) (h : isJsSpace a = false) (n : Nat) :
    trimChars (List.replicate n a) = List.replicate n a := by
  unfold trimChars
  rw [dropWhile_replicate_of_not _ _ h, List.reverse_replicate,
    dropWhile_replicate_of_not _ _ h, List.reverse_replicate]

lemma insertByTime_perm (m : ChatMessage) (l : List ChatMessage) :
    (insertByTime m l).Perm (m :: l) := by
  induction l with
  | nil => simp [insertByTime]
  | cons x xs ih =>
    by_cases h : m.created_at ≤ x.created_at
    · simp [insertByTime, h]
    · simp only [insertByTime, if_neg h]
      exact (ih.cons x).trans (List.Perm.swap m x xs)

lemma sortByCreatedAt_perm (l : List ChatMessage) : (sortByCreatedAt l).Perm l := by
  induction l with
  | nil => simp [sortByCreatedAt]
  | cons x xs ih =>
    exact (insertByTime_perm x (sortByCreatedAt xs)).trans (ih.cons x)

lemma insertByTime_pairwise (m : ChatMessage) (l : List ChatMessage)
    (h : List.Pairwise timeLE l) : List.Pairwise timeLE (insertByTime m l) := by
  induction l with
  | nil => simp [insertByTime, List.pairwise_singleton]
  | cons x xs ih =>
    by_cases hc : m.created_at ≤ x.created_at
    · simp only [insertByTime, if_pos hc]
      refine List.Pairwise.cons ?_ h
      intro b hb
      rcases List.mem_cons.mp hb with rfl | hb'
      · exact hc
      · exact le_trans hc (List.rel_of_pairwise_cons h hb')
    · simp only [insertByTime, if_neg hc]
      refine List.Pairwise.cons ?_ (ih h.of_cons)
      intro b hb
      rcases List.mem_cons.mp ((insertByTime_perm m xs).mem_iff.mp hb) with rfl | hb'
      · exact le_of_not_le hc
      · exact List.rel_of_pairwise_cons h hb'

lemma sortByCreatedAt_pairwise (l : List ChatMessage) :
    List.Pairwise timeLE (sortByCreatedAt l) := by
  induction l with
  | nil => simp [sortByCreatedAt]
  | cons x xs ih => exact insertByTime_pairwise x _ ih

lemma insertByTime_of_le (m : ChatMessage) (l : List ChatMessage)
    (h : ∀ b ∈ l, m.created_at ≤ b.created_at) : insertByTime m l = m :: l := by
  cases l with
  | nil => rfl
  | cons x xs => simp [insertByTime, h x (by simp)]

lemma sortByCreatedAt_of_sorted (l : List ChatMessage)
    (h : List.Pairwise timeLE l) : sortByCreatedAt l = l := by
  induction l with
  | nil => rfl
  | cons x xs ih =>
    simp only [sortByCreatedAt]
    rw [ih h.of_cons]
    exact insertByTime_of_le x xs (fun b hb => List.rel_of_pairwise_cons h hb)

lemma find?_self_of_nodup (l : List ChatMessage) (m : ChatMessage)
    (hnd : (l.map (fun x => x.id)).Nodup) (hm : m ∈ l) :
    l.find? (fun x => x.id == m.id) = some m := by
  induction l with
  | nil => simp at hm
  | cons a tl ih =>
    rcases List.mem_cons.mp hm with rfl | hm
    · simp [List.find?_cons]
    · have hane : (a.id == m.id) = false := by
        have : a.id ∉ tl.map (fun x => x.id) := by
          have := hnd
          simp only [List.map_cons, List.nodup_cons] at this
          exact this.1
        have hmem : m.id ∈ tl.map (fun x => x.id) := List.mem_map_of_mem _ hm
        simp only [beq_eq_false_iff_ne, ne_eq]
        intro hcontra
        exact this (hcontra ▸ hmem)
      rw [List.find?_cons, hane]
      exact ih (by simpa using (List.nodup_cons.mp (by simpa using hnd)).2) hm

lemma foldl_applyInsertEvent (db : List ChatMessage) (rest : List ChatMessage) :
    ∀ st : List ChatMessage,
      (∀ m ∈ rest, db.find? (fun x => x.id == m.id) = some m) →
      rest.foldl (fun s m => applyInsertEvent db s m.id) st = st ++ rest := by
  induction rest with
  | nil => intro st _; simp
  | cons a tl ih =>
    intro st h
    have ha : db.find? (fun x => x.id == a.id) = some a := h a (by simp)
    simp only [List.foldl_cons]
    rw [show applyInsertEvent db st a.id = st ++ [a] by
          simp [applyInsertEvent, pointFetchMessage, ha]]
    rw [ih (st ++ [a]) (fun m hm => h m (by simp [hm]))]
    simp

lemma applyUpdateEvent_map_id (db st : List ChatMessage) (i : Nat) :
    (applyUpdateEvent db st i).map (fun m => m.id) = st.map (fun m => m.id) := by
  unfold applyUpdateEvent
  cases hfind : pointFetchMessage db i with
  | none => rfl
  | some m =>
    simp only [List.map_map]
    apply List.map_congr_left
    intro x _
    by_cases hx : x.id = m.id
    · simp [Function.comp_apply, hx]
    · simp [Function.comp_apply, hx]

/-! ## Claim theorems -/

/-- C1: the claim says every insert of a chat message into a meetup
channel fans out exactly one 'message' notification per non-sender
member.  The fan-out function `notify_meetup_message` would indeed
produce exactly that row (second conjunct), but the trigger is attached
to the table `meetup_chat_messages`, which no schema script creates,
while the client inserts into `chat_messages` — so a client message
insert produces no notification rows at all (first conjunct), even
though a non-sender member exists. -/
theorem messageFanout_miswired :
    notificationsOnChatMessageInsert dbTrip msgHello = []
    ∧ notifyMeetupMessage dbTrip msgHello
        = [⟨2, "message", "New message in Trip", "alice: hello", 7⟩]
    ∧ messageNotifyTriggerTable ≠ clientChatMessagesTable
    ∧ dbTrip.meetup_members.countP (fun r => !(r.user_id == msgHello.user_id)) = 1 := by
  refine ⟨?_, by decide, by decide, by decide⟩
  unfold notificationsOnChatMessageInsert
  rw [if_neg (by decide)]

/-- C2 counterexample: the claim says duplicate delivery of the same
`row-inserted` event leaves the message exactly once in local state.  On
an initially empty channel, delivering the insert event for id 5 twice
leaves the row twice: the INSERT handler appends without checking
whether the id is already present. -/
theorem insertEvent_duplicate_counterexample :
    applyInsertEvent [msgA] (applyInsertEvent [msgA] (fetchMeetupMessages [] 7) 5) 5
      = [msgA, msgA]
    ∧ (applyInsertEvent [msgA] (applyInsertEvent [msgA] (fetchMeetupMessages [] 7) 5) 5).countP
        (fun m => m.id == 5) = 2 := by
  exact ⟨by decide, by decide⟩

/-- C2 amended: delivering the same `row-inserted` event twice for id X
appends the row twice — the insert merge is an unconditional append, not
idempotent against duplicate delivery: each delivery adds one more copy
of the row with id X. -/
theorem insertEvent_duplicate_delivery (db st : List ChatMessage) (i : Nat)
    (m : ChatMessage) (h : db.find? (fun x => x.id == i) = some m) :
    applyInsertEvent db (applyInsertEvent db st i) i = st ++ [m, m]
    ∧ (applyInsertEvent db (applyInsertEvent db st i) i).countP (fun x => x.id == i)
        = st.countP (fun x => x.id == i) + 2 := by
  have hm : m.id = i := by simpa using List.find?_some h
  have h2 : applyInsertEvent db (applyInsertEvent db st i) i = st ++ [m, m] := by
    simp [applyInsertEvent, pointFetchMessage, h]
  refine ⟨h2, ?_⟩
  rw [h2, List.countP_append]
  simp [List.countP_cons, hm]

theorem insertEvent_duplicate_delivery_witness :
    applyInsertEvent [msgB] (applyInsertEvent [msgB] [] 9) 9 = [] ++ [msgB, msgB]
    ∧ (applyInsertEvent [msgB] (applyInsertEvent [msgB] [] 9) 9).countP (fun x => x.id == 9)
        = (([] : List ChatMessage)).countP (fun x => x.id == 9) + 2 :=
  insertEvent_duplicate_delivery [msgB] [] 9 msgB (by decide)

/-- C6 counterexample: the claim says that with the sentinel
`max_members = 999999` the capacity check always passes.  It does not: a
join attempt against a meetup with `max_members = 999999` whose member
count has reached 999999 is rejected by the same numeric comparison. -/
theorem capacitySentinel_counterexample :
    (handleJoinMeetup 7 999999 MeetupVisibility.vOpen 5 0 0
        ⟨List.replicate 999999 ⟨7, 1⟩, []⟩).1 = JoinOutcome.groupFull := by
  have h : (999999 : Nat) ≤ (List.replicate 999999 (⟨7, 1⟩ : MemberRow)).length := by
    rw [List.length_replicate]
  unfold handleJoinMeetup
  rw [if_pos h]

/-- C6 amended: a join attempt (direct join or request submission) made
when the current member count is at least `max_members` is rejected with
the capacity error and writes nothing (the state is returned unchanged);
with `max_members = 999999` the capacity check passes whenever the
member count is below 999999 — the sentinel is an ordinary numeric
bound, not a special case. -/
theorem capacityCheck_gates_join (meetupId maxMembers : Nat) (vis : MeetupVisibility)
    (userId now newReqId : Nat) (st : JoinState) :
    (st.members.length ≥ maxMembers →
        handleJoinMeetup meetupId maxMembers vis userId now newReqId st
          = (JoinOutcome.groupFull, st))
    ∧ (maxMembers = 999999 → st.members.length < 999999 →
        (handleJoinMeetup meetupId maxMembers vis userId now newReqId st).1
          ≠ JoinOutcome.groupFull) := by
  constructor
  · intro h
    unfold handleJoinMeetup
    rw [if_pos h]
  · intro h9 hlt
    subst h9
    unfold handleJoinMeetup
    rw [if_neg (by omega : ¬ st.members.length ≥ 999999)]
    cases vis with
    | vOpen => simp
    | vLocked =>
      cases hf : st.requests.find?
          (fun r => r.meetup_id == meetupId && r.user_id == userId) with
      | none => simp [hf]
      | some r =>
        by_cases hp : r.status = ReqStatus.pending <;> simp [hf, hp]

theorem capacityCheck_gates_join_witness :
    handleJoinMeetup 7 999999 MeetupVisibility.vOpen 6 0 0
        ⟨List.replicate 999999 ⟨7, 1⟩, []⟩
      = (JoinOutcome.groupFull, ⟨List.replicate 999999 ⟨7, 1⟩, []⟩)
    ∧ (handleJoinMeetup 7 999999 MeetupVisibility.vOpen 6 0 0 ⟨[⟨7, 1⟩], []⟩).1
        ≠ JoinOutcome.groupFull :=
  ⟨(capacityCheck_gates_join 7 999999 MeetupVisibility.vOpen 6 0 0
      ⟨List.replicate 999999 ⟨7, 1⟩, []⟩).1 (by rw [List.length_replicate]),
   (capacityCheck_gates_join 7 999999 MeetupVisibility.vOpen 6 0 0 ⟨[⟨7, 1⟩], []⟩).2
      rfl (by decide)⟩

/-- C8 counterexample: the claim says the activity fan-out body is
exactly `'<creator>: created <activity title>'`.  The code concatenates
`creator_name || ' created: ' || NEW.title`: for creator alice and
activity Hike the produced body is `'alice created: Hike'`, not the
claimed `'alice: created Hike'`. -/
theorem activityFanout_body_counterexample :
    notificationsOnActivityInsert dbTrip actHike
      = [⟨2, "activity", "New activity in Trip", "alice created: Hike", 7⟩]
    ∧ ("alice created: Hike" : String) ≠ "alice: created Hike" := by
  exact ⟨by decide, by decide⟩

/-- C4: a text send is rejected with no row written exactly when the
trimmed text is empty or the trimmed length exceeds 5000 characters (the
zod schema validates the trimmed content); a body of exactly 5000
characters is accepted and a body of exactly 5001 characters is rejected
before any store write. -/
theorem meetupSendText_validation :
    (∀ raw : List Char,
        meetupSendText raw = none ↔
          (trimChars raw).length = 0 ∨ 5000 < (trimChars raw).length)
    ∧ (meetupSendText (List.replicate 5000 'a')).isSome = true
    ∧ meetupSendText (List.replicate 5001 'a') = none := by
  have hrep : ∀ n, trimChars (List.replicate n 'a') = List.replicate n 'a' :=
    trimChars_replicate 'a' (by decide)
  refine ⟨?_, ?_, ?_⟩
  · intro raw
    unfold meetupSendText chatMessageContentOk
    rcases Nat.eq_zero_or_pos (trimChars raw).length with h0 | hpos
    · have hemp : (trimChars raw).isEmpty = true :=
        List.isEmpty_iff_length_eq_zero.mpr h0
      simp [hemp, h0]
    · have hemp : ¬ (trimChars raw).isEmpty = true := by
        intro hc
        have := List.isEmpty_iff_length_eq_zero.mp hc
        omega
      rw [if_neg hemp]
      by_cases h5 : (trimChars raw).length ≤ 5000
      · rw [if_pos (by simp; omega)]
        constructor
        · intro hcontra
          exact Option.noConfusion hcontra
        · intro hcontra
          exact absurd hcontra (by omega)
      · rw [if_neg (by simp; omega)]
        constructor
        · intro _
          omega
        · intro _
          rfl
  · have h1 : ¬ (trimChars (List.replicate 5000 'a')).isEmpty = true := by
      rw [hrep 5000, List.isEmpty_iff_length_eq_zero, List.length_replicate]
      omega
    have h2 : chatMessageContentOk (List.replicate 5000 'a') = true := by
      unfold chatMessageContentOk
      rw [hrep 5000, List.length_replicate]
      rfl
    unfold meetupSendText
    rw [if_neg h1, if_pos h2]
    rfl
  · have h1 : ¬ (trimChars (List.replicate 5001 'a')).isEmpty = true := by
      rw [hrep 5001, List.isEmpty_iff_length_eq_zero, List.length_replicate]
      omega
    have h2 : ¬ chatMessageContentOk (List.replicate 5001 'a') = true := by
      unfold chatMessageContentOk
      rw [hrep 5001, List.length_replicate]
      simp
    unfold meetupSendText
    rw [if_neg h1, if_neg h2]

/-- C5 counterexample: the claim quantifies over the whole text send
path, including the community channel, where a message consisting of a
valid Google-Maps URL (a URL token matching the map-link shape, second
conjunct) is nevertheless inserted with type `'text'` (first conjunct),
not `'location'` as the claim requires. -/
theorem communityMapsLink_counterexample :
    communitySendText (("https://maps.google.com/xyz").toList)
      = some ⟨MessageType.text, ("https://maps.google.com/xyz").toList⟩
    ∧ (extractUrls (("https://maps.google.com/xyz").toList)).any validateGoogleMapsLink
        = true := by
  exact ⟨by decide, by decide⟩

/-- C5 amended: in the meetup chat send path the inserted type is
`'location'` iff the sanitized text contains at least one URL token and
at least one such token matches the Google-Maps link shape, otherwise
`'text'`; the community chat send path always inserts type `'text'`,
even when the text contains a matching maps link.  The two scenario
texts classify as `location` and `text` respectively. -/
theorem textSendPath_classification :
    (∀ t : List Char,
        detectTextMessageType t = MessageType.location ↔
          extractUrls t ≠ [] ∧ (extractUrls t).any validateGoogleMapsLink = true)
    ∧ (∀ raw out, meetupSendText raw = some out →
          out.message_type = detectTextMessageType out.content)
    ∧ (∀ raw out, communitySendText raw = some out →
          out.message_type = MessageType.text)
    ∧ detectTextMessageType (("Check this out https://maps.google.com/xyz").toList)
        = MessageType.location
    ∧ detectTextMessageType (("Check this out https://example.com").toList)
        = MessageType.text := by
  refine ⟨?_, ?_, ?_, by decide, by decide⟩
  · intro t
    unfold detectTextMessageType
    rcases hu : extractUrls t with _ | ⟨u, us⟩
    · simp
    · rw [if_pos (by simp)]
      cases hany : (u :: us).any validateGoogleMapsLink
      · simp [hany]
      · simp [hany]
  · intro raw out h
    unfold meetupSendText at h
    by_cases h1 : (trimChars raw).isEmpty = true
    · rw [if_pos h1] at h
      exact absurd h (by simp)
    · rw [if_neg h1] at h
      by_cases h2 : chatMessageContentOk raw = true
      · rw [if_pos h2] at h
        obtain rfl := (Option.some.inj h).symm
        rfl
      · rw [if_neg h2] at h
        exact absurd h (by simp)
  · intro raw out h
    unfold communitySendText at h
    by_cases h1 : (trimChars raw).isEmpty = true
    · rw [if_pos h1] at h
      exact absurd h (by simp)
    · rw [if_neg h1] at h
      by_cases h2 : chatMessageContentOk raw = true
      · rw [if_pos h2] at h
        obtain rfl := (Option.some.inj h).symm
        rfl
      · rw [if_neg h2] at h
        exact absurd h (by simp)

theorem textSendPath_classification_witness :
    meetupSendText (("see https://maps.google.com/abc").toList)
      = some ⟨MessageType.location, ("see https://maps.google.com/abc").toList⟩
    ∧ (⟨MessageType.location,
          ("see https://maps.google.com/abc").toList⟩ : OutgoingMessage).message_type
        = detectTextMessageType (("see https://maps.google.com/abc").toList)
    ∧ communitySendText (("hi there").toList)
        = some ⟨MessageType.text, ("hi there").toList⟩
    ∧ (⟨MessageType.text, ("hi there").toList⟩ : OutgoingMessage).message_type
        = MessageType.text := by
  refine ⟨by decide, ?_, by decide, ?_⟩
  · exact textSendPath_classification.2.1
      (("see https://maps.google.com/abc").toList) _ (by decide)
  · exact textSendPath_classification.2.2.1 (("hi there").toList) _ (by decide)

/-- C3: for a channel whose history `ms` was produced in creation-time
order with distinct ids, an initial fetch of any prefix (which sorts
explicitly) followed by delivery of the remaining insert events in order
(each appending at the end) yields exactly the full history in ascending
creation-time order, and an update event never changes the id sequence
(positions) of the local list. -/
theorem realtimeSync_preserves_order (ms : List ChatMessage) (mid k : Nat)
    (hmid : ∀ m ∈ ms, m.meetup_id = mid)
    (hsorted : List.Pairwise timeLE ms)
    (hids : (ms.map (fun m => m.id)).Nodup) :
    (ms.drop k).foldl (fun st m => applyInsertEvent ms st m.id)
        (fetchMeetupMessages (ms.take k) mid) = ms
    ∧ List.Pairwise timeLE
        ((ms.drop k).foldl (fun st m => applyInsertEvent ms st m.id)
          (fetchMeetupMessages (ms.take k) mid))
    ∧ (∀ st i, (applyUpdateEvent ms st i).map (fun m => m.id)
        = st.map (fun m => m.id)) := by
  have hfetch : fetchMeetupMessages (ms.take k) mid = ms.take k := by
    unfold fetchMeetupMessages
    have hfil : (ms.take k).filter (fun m => m.meetup_id == mid) = ms.take k := by
      apply List.filter_eq_self.mpr
      intro a ha
      simp [hmid a (List.take_subset k ms ha)]
    rw [hfil]
    exact sortByCreatedAt_of_sorted _ (hsorted.sublist (List.take_sublist k ms))
  have hfold := foldl_applyInsertEvent ms (ms.drop k) (ms.take k)
    (fun m hm => find?_self_of_nodup ms m hids (List.drop_subset k ms hm))
  refine ⟨?_, ?_, fun st i => applyUpdateEvent_map_id ms st i⟩
  · rw [hfetch, hfold]
    exact List.take_append_drop k ms
  · rw [hfetch, hfold, List.take_append_drop]
    exact hsorted

theorem realtimeSync_preserves_order_witness :
    (([msgA, msgB].drop 1).foldl (fun st m => applyInsertEvent [msgA, msgB] st m.id)
        (fetchMeetupMessages ([msgA, msgB].take 1) 7) = [msgA, msgB])
    ∧ (applyUpdateEvent [msgA, msgB] [msgA] 5).map (fun m => m.id)
        = [msgA].map (fun m => m.id) :=
  ⟨(realtimeSync_preserves_order [msgA, msgB] 7 1 (by decide) (by decide) (by decide)).1,
   (realtimeSync_preserves_order [msgA, msgB] 7 1 (by decide) (by decide)
      (by decide)).2.2 [msgA] 5⟩

/-- C10: the community channel's initial fetch returns the first 100
entries of the ascending creation-time ordering of the whole table — at
most 100 rows, the oldest ones, sorted ascending; every row beyond those
100 (all of them at least as new) is excluded from the initially loaded
state. -/
theorem communityFetch_hundred_oldest (db : List ChatMessage) :
    (fetchCommunityMessages db).length = min 100 db.length
    ∧ List.Pairwise timeLE (fetchCommunityMessages db)
    ∧ sortByCreatedAt db = fetchCommunityMessages db ++ (sortByCreatedAt db).drop 100
    ∧ (sortByCreatedAt db).Perm db
    ∧ ((fetchCommunityMessages db).all (fun x =>
          ((sortByCreatedAt db).drop 100).all (fun y =>
            decide (x.created_at ≤ y.created_at)))) = true := by
  have hperm := sortByCreatedAt_perm db
  have hsorted := sortByCreatedAt_pairwise db
  refine ⟨?_, ?_, ?_, hperm, ?_⟩
  · unfold fetchCommunityMessages
    rw [List.length_take, hperm.length_eq]
  · exact hsorted.sublist (List.take_sublist 100 (sortByCreatedAt db))
  · exact (List.take_append_drop 100 (sortByCreatedAt db)).symm
  · apply List.all_eq_true.mpr
    intro x hx
    apply List.all_eq_true.mpr
    intro y hy
    apply decide_eq_true
    have hsplit : List.Pairwise timeLE
        ((sortByCreatedAt db).take 100 ++ (sortByCreatedAt db).drop 100) := by
      rw [List.take_append_drop]
      exact hsorted
    exact (List.pairwise_append.mp hsplit).2.2 x hx y hy

/-- C7: when the caller already has a join request row for the meetup
and it is in status rejected, joining again updates that row in place —
status reset to pending, updated_at refreshed — producing a mapped list
of the same length with an unchanged number of rows for the (meetup,
user) pair; no second row is ever inserted.  The closing conjuncts trace
a concrete run pending → rejected → pending on the single row with
id 41. -/
theorem resubmitAfterRejection_updatesInPlace
    (meetupId maxMembers userId now newReqId : Nat)
    (st : JoinState) (r : JoinRequestRow)
    (hcap : st.members.length < maxMembers)
    (hfind : st.requests.find? (fun q => q.meetup_id == meetupId && q.user_id == userId)
        = some r)
    (hrej : r.status = ReqStatus.rejected) :
    handleJoinMeetup meetupId maxMembers MeetupVisibility.vLocked userId now newReqId st
      = (JoinOutcome.resubmitted,
          ⟨st.members,
            st.requests.map (fun q =>
              if q.id == r.id then
                { q with status := ReqStatus.pending, updated_at := now }
              else q)⟩)
    ∧ (st.requests.map (fun q =>
          if q.id == r.id then
            { q with status := ReqStatus.pending, updated_at := now }
          else q)).length = st.requests.length
    ∧ (st.requests.map (fun q =>
          if q.id == r.id then
            { q with status := ReqStatus.pending, updated_at := now }
          else q)).countP (fun q => q.meetup_id == meetupId && q.user_id == userId)
        = st.requests.countP (fun q => q.meetup_id == meetupId && q.user_id == userId)
    ∧ (handleJoinMeetup 7 10 MeetupVisibility.vLocked 2 100 41 ⟨[⟨7, 1⟩], []⟩).2.requests
        = [⟨41, 7, 2, ReqStatus.pending, 100⟩]
    ∧ (handleRequest 41 2 7 false false
          ⟨[⟨7, 1⟩], [⟨41, 7, 2, ReqStatus.pending, 100⟩]⟩).1.requests
        = [⟨41, 7, 2, ReqStatus.rejected, 100⟩]
    ∧ (handleJoinMeetup 7 10 MeetupVisibility.vLocked 2 200 42
          ⟨[⟨7, 1⟩], [⟨41, 7, 2, ReqStatus.rejected, 100⟩]⟩).2.requests
        = [⟨41, 7, 2, ReqStatus.pending, 200⟩] := by
  have hne : ¬ r.status = ReqStatus.pending := by simp [hrej]
  refine ⟨?_, List.length_map _ _, ?_, by decide, by decide, by decide⟩
  · unfold handleJoinMeetup
    rw [if_neg (by omega : ¬ st.members.length ≥ maxMembers)]
    simp only [hfind]
    rw [if_neg hne]
  · rw [List.countP_map]
    apply countP_congr_eq
    intro q _
    by_cases hid : (q.id == r.id) = true <;> simp [Function.comp, hid]

theorem resubmitAfterRejection_updatesInPlace_witness :
    handleJoinMeetup 7 5 MeetupVisibility.vLocked 3 20 51
        ⟨[⟨7, 1⟩, ⟨7, 2⟩], [⟨50, 7, 3, ReqStatus.rejected, 10⟩]⟩
      = (JoinOutcome.resubmitted,
          ⟨[⟨7, 1⟩, ⟨7, 2⟩], [⟨50, 7, 3, ReqStatus.pending, 20⟩]⟩)
    ∧ ([(⟨50, 7, 3, ReqStatus.rejected, 10⟩ : JoinRequestRow)].map (fun q =>
          if q.id == 50 then
            { q with status := ReqStatus.pending, updated_at := 20 }
          else q)).countP (fun q => q.meetup_id == 7 && q.user_id == 3)
        = [(⟨50, 7, 3, ReqStatus.rejected, 10⟩ : JoinRequestRow)].countP
            (fun q => q.meetup_id == 7 && q.user_id == 3) := by
  refine ⟨?_, ?_⟩
  · exact (resubmitAfterRejection_updatesInPlace 7 5 3 20 51
      ⟨[⟨7, 1⟩, ⟨7, 2⟩], [⟨50, 7, 3, ReqStatus.rejected, 10⟩]⟩
      ⟨50, 7, 3, ReqStatus.rejected, 10⟩ (by decide) (by decide) rfl).1
  · exact (resubmitAfterRejection_updatesInPlace 7 5 3 20 51
      ⟨[⟨7, 1⟩, ⟨7, 2⟩], [⟨50, 7, 3, ReqStatus.rejected, 10⟩]⟩
      ⟨50, 7, 3, ReqStatus.rejected, 10⟩ (by decide) (by decide) rfl).2.2.1

/-- C9: approving a join request performs the status update first and
the membership insert second, as two separate writes; when the
membership insert fails after the status update succeeded, the handler
reports failure, the member table is unchanged (still no row for the
pair), and the request row is left in status approved. -/
theorem approveRequest_nonAtomic (requestId userId meetupId : Nat) (st : JoinState)
    (r : JoinRequestRow)
    (hfind : st.requests.find? (fun q => q.id == requestId) = some r)
    (hnomem : (⟨meetupId, userId⟩ : MemberRow) ∉ st.members) :
    (handleRequest requestId userId meetupId true true st).2 = false
    ∧ (handleRequest requestId userId meetupId true true st).1.members = st.members
    ∧ (⟨meetupId, userId⟩ : MemberRow)
        ∉ (handleRequest requestId userId meetupId true true st).1.members
    ∧ (handleRequest requestId userId meetupId true true st).1.requests.find?
        (fun q => q.id == requestId) = some { r with status := ReqStatus.approved } := by
  have hrid : r.id = requestId := by simpa using List.find?_some hfind
  refine ⟨rfl, rfl, hnomem, ?_⟩
  show (st.requests.map (fun q =>
      if q.id == requestId then { q with status := ReqStatus.approved } else q)).find?
        (fun q => q.id == requestId) = some { r with status := ReqStatus.approved }
  rw [List.find?_map]
  have hcomp : ((fun q => q.id == requestId) ∘ (fun q =>
      if q.id == requestId then { q with status := ReqStatus.approved } else q))
        = (fun q : JoinRequestRow => q.id == requestId) := by
    funext q
    by_cases hq : (q.id == requestId) = true <;> simp [Function.comp, hq]
  rw [hcomp, hfind]
  simp [hrid]

theorem approveRequest_nonAtomic_witness :
    (handleRequest 60 4 7 true true ⟨[⟨7, 1⟩], [⟨60, 7, 4, ReqStatus.pending, 5⟩]⟩).2
        = false
    ∧ (handleRequest 60 4 7 true true ⟨[⟨7, 1⟩], [⟨60, 7, 4, ReqStatus.pending, 5⟩]⟩).1.members
        = [⟨7, 1⟩]
    ∧ (⟨7, 4⟩ : MemberRow)
        ∉ (handleRequest 60 4 7 true true
            ⟨[⟨7, 1⟩], [⟨60, 7, 4, ReqStatus.pending, 5⟩]⟩).1.members
    ∧ (handleRequest 60 4 7 true true
          ⟨[⟨7, 1⟩], [⟨60, 7, 4, ReqStatus.pending, 5⟩]⟩).1.requests.find?
        (fun q => q.id == 60) = some ⟨60, 7, 4, ReqStatus.approved, 5⟩ :=
  approveRequest_nonAtomic 60 4 7 ⟨[⟨7, 1⟩], [⟨60, 7, 4, ReqStatus.pending, 5⟩]⟩
    ⟨60, 7, 4, ReqStatus.pending, 5⟩ (by decide) (by decide)

/-- C8 amended: on an activity insert into a meetup whose title and
creator username resolve, the fan-out produces exactly one notification
of kind activity for each membership row of the meetup whose user is not
the creator (one per member under the unique-membership constraint),
none for the creator or for non-members, each with title
`'New activity in <meetup title>'` and body
`'<creator> created: <activity title>'` (creator name, then the literal
` created: `, then the title). -/
theorem activityFanout_per_member (db : TriggerDb) (a : NewActivityRow) (T C : String)
    (ht : lookupMeetupTitle db a.meetup_id = some T)
    (hc : lookupUsername db a.created_by = some C)
    (hnd : db.meetup_members.Nodup) :
    (∀ u : Nat, u ≠ a.created_by →
        (⟨a.meetup_id, u⟩ : MemberRow) ∈ db.meetup_members →
        (notificationsOnActivityInsert db a).countP (fun n => n.user_id == u) = 1)
    ∧ (notificationsOnActivityInsert db a).countP (fun n => n.user_id == a.created_by)
        = 0
    ∧ (∀ n ∈ notificationsOnActivityInsert db a,
        n.ntype = "activity" ∧ n.title = "New activity in " ++ T
          ∧ n.body = C ++ " created: " ++ a.title ∧ n.meetup_id = a.meetup_id)
    ∧ (∀ u : Nat, (⟨a.meetup_id, u⟩ : MemberRow) ∉ db.meetup_members →
        (notificationsOnActivityInsert db a).countP (fun n => n.user_id == u) = 0) := by
  have hwire : notificationsOnActivityInsert db a = notifyMeetupActivity db a := by
    unfold notificationsOnActivityInsert
    have heq : activityNotifyTriggerTable = clientActivitiesTable := by decide
    rw [if_pos heq]
  have hbody : notifyMeetupActivity db a
      = (db.meetup_members.filter
            (fun x => x.meetup_id == a.meetup_id && !(x.user_id == a.created_by))).map
          (fun x => ⟨x.user_id, "activity", "New activity in " ++ T,
            C ++ " created: " ++ a.title, a.meetup_id⟩) := by
    unfold notifyMeetupActivity
    rw [ht]
    simp [hc]
  refine ⟨?_, ?_, ?_, ?_⟩
  · intro u hu hmem
    rw [hwire, hbody, List.countP_map, List.countP_filter]
    calc db.meetup_members.countP (fun x =>
            ((fun n : NotificationRow => n.user_id == u) ∘ (fun x => ⟨x.user_id,
              "activity", "New activity in " ++ T, C ++ " created: " ++ a.title,
              a.meetup_id⟩)) x
            && (x.meetup_id == a.meetup_id && !(x.user_id == a.created_by)))
        = db.meetup_members.countP (fun x => x == (⟨a.meetup_id, u⟩ : MemberRow)) := by
          apply countP_congr_eq
          rintro ⟨xm, xu⟩ _
          simp only [Function.comp_apply]
          rw [Bool.eq_iff_iff]
          simp only [Bool.and_eq_true, beq_iff_eq, Bool.not_eq_true',
            beq_eq_false_iff_ne, ne_eq, MemberRow.mk.injEq]
          constructor
          · rintro ⟨e1, e2, _⟩
            exact ⟨e2, e1⟩
          · rintro ⟨e2, e1⟩
            refine ⟨e1, e2, ?_⟩
            rw [e1]
            exact hu
      _ = List.count (⟨a.meetup_id, u⟩ : MemberRow) db.meetup_members :=
          (List.count_eq_countP _ _).symm
      _ = 1 := List.count_eq_one_of_mem hnd hmem
  · rw [hwire, hbody, List.countP_map, List.countP_filter]
    apply List.countP_eq_zero.mpr
    rintro ⟨xm, xu⟩ _
    by_cases h1 : xu = a.created_by <;> simp [Function.comp, h1]
  · intro n hn
    rw [hwire, hbody] at hn
    rcases List.mem_map.mp hn with ⟨x, _, rfl⟩
    exact ⟨rfl, rfl, rfl, rfl⟩
  · intro u hnotmem
    rw [hwire, hbody, List.countP_map, List.countP_filter]
    apply List.countP_eq_zero.mpr
    rintro ⟨xm, xu⟩ hx
    by_cases h1 : xu = u
    · by_cases h2 : xm = a.meetup_id
      · subst h1; subst h2
        intro _
        exact hnotmem hx
      · simp [Function.comp, h2]
    · simp [Function.comp, h1]

theorem activityFanout_per_member_witness :
    (notificationsOnActivityInsert dbTrip actHike).countP (fun n => n.user_id == 2) = 1
    ∧ (notificationsOnActivityInsert dbTrip actHike).countP (fun n => n.user_id == 1) = 0
    ∧ (notificationsOnActivityInsert dbTrip actHike).countP (fun n => n.user_id == 5)
        = 0 := by
  have h := activityFanout_per_member dbTrip actHike "Trip" "alice"
    (by decide) (by decide) (by decide)
  exact ⟨h.1 2 (by decide) (by decide), h.2.1, h.2.2.2 5 (by decide)⟩

end Buddy
